import Mathlib

/-!
# Dolphin: item-list animation helper and view-properties progress dialog

Shallow embedding of

* `src/kitemviews/private/kitemlistviewanimation.cpp` (`KItemListViewAnimation`)
* `src/settings/viewpropsprogressinfo.cpp` (`ViewPropsProgressInfo`)

together with small models of the toolkit objects these two classes call into.

Conventions of the embedding.

* `qreal` is an arbitrary type `R` that carries the operations the source uses
  (`+`, `-` and the constants `0`, `1`, `-1`).  No algebraic law is assumed, so
  every general theorem below holds for whatever arithmetic `R` implements.
* The comparison `==` of two points or of two sizes is the toolkit's, and it is
  not exact equality.  `start` takes the two comparisons as arguments; the
  toolkit's fuzzy comparison is given below over an ordered ring.
* A `QGraphicsWidget *` is a natural number (the address); the widgets themselves
  live in a store `widgets : Nat → QGraphicsWidget R`.
* A `QPropertyAnimation *` held in `m_animation` is owned by the registry (it is
  created in `start` and deleted when its entry is removed), so the animation
  object is stored in the entry itself.
* A `QHash<QGraphicsWidget *, QPropertyAnimation *>` is an association list; the
  iteration order of the hash is the order of the list.
* Signals emitted by the helper are appended to the log `emitted`.
* Of the toolkit's animation engine the synchronous part of `start()` is
  modelled: the rewind, the write of the first value into the target property,
  and the stop of the animation that was running on the same target and
  property.  The timer-driven interpolation that follows is not part of the
  source and is not modelled.
-/

namespace Dolphin

/-! ## Toolkit values -/

/-- Scroll direction (`Qt::Orientation`). -/
inductive Orientation where
  | Horizontal
  | Vertical
  deriving DecidableEq, Repr

/-- A point with `qreal` coordinates. -/
structure QPointF (R : Type) where
  x : R
  y : R
  deriving DecidableEq, Repr

/-- A size with `qreal` extents. -/
structure QSizeF (R : Type) where
  width : R
  height : R
  deriving DecidableEq, Repr

/-- The variant values that reach the animation helper. -/
inductive QVariant (R : Type) where
  | invalid
  | pointF (p : QPointF R)
  | sizeF (s : QSizeF R)
  | real (r : R)
  | int (n : Int)
  deriving DecidableEq, Repr

/-- Conversion `QVariant::toPointF`: the held point, otherwise the null point. -/
def QVariant.toPointF {R : Type} [Zero R] : QVariant R → QPointF R
  | QVariant.pointF p => p
  | _ => { x := 0, y := 0 }

/-- Conversion `QVariant::toSizeF`: the held size, otherwise the invalid size
`QSizeF()`, whose extents are both `-1`. -/
def QVariant.toSizeF {R : Type} [One R] [Neg R] : QVariant R → QSizeF R
  | QVariant.sizeF s => s
  | _ => { width := -1, height := -1 }

/-! ## The toolkit's comparison of points and sizes

`operator==` on `QPointF` and on `QSizeF` compares each coordinate with
`qFuzzyIsNull` of the difference when one of the two is zero and with
`qFuzzyCompare` otherwise.  The bound `1e-12` of `qFuzzyIsNull` is written
without division: `|d| * 10^12 ≤ 1`. -/

section Fuzzy

variable {R : Type} [LinearOrderedRing R]

/-- Helper `qAbs`: `t >= 0 ? t : -t`. -/
def qAbs (t : R) : R :=
  if 0 ≤ t then t else -t

/-- Helper `qMin`: `a < b ? a : b`. -/
def qMin (a b : R) : R :=
  if a < b then a else b

/-- Test `qFuzzyIsNull(d)`: `qAbs(d) <= 0.000000000001`. -/
def qFuzzyIsNull (d : R) : Bool :=
  decide (qAbs d * 1000000000000 ≤ 1)

/-- Test `qFuzzyCompare(p1, p2)`:
`qAbs(p1 - p2) * 1000000000000. <= qMin(qAbs(p1), qAbs(p2))`. -/
def qFuzzyCompare (p1 p2 : R) : Bool :=
  decide (qAbs (p1 - p2) * 1000000000000 ≤ qMin (qAbs p1) (qAbs p2))

/-- The comparison of one coordinate inside `operator==`. -/
def fuzzyCoordinate (a b : R) : Bool :=
  if a = 0 ∨ b = 0 then qFuzzyIsNull (a - b) else qFuzzyCompare a b

/-- Comparison `operator==(const QPointF &, const QPointF &)`. -/
def QPointF.fuzzyEq (p q : QPointF R) : Bool :=
  fuzzyCoordinate p.x q.x && fuzzyCoordinate p.y q.y

/-- Comparison `operator==(const QSizeF &, const QSizeF &)`. -/
def QSizeF.fuzzyEq (s t : QSizeF R) : Bool :=
  fuzzyCoordinate s.width t.width && fuzzyCoordinate s.height t.height

end Fuzzy

/-- The enumerators of `KItemListViewAnimation::AnimationType` that name an
animation (`AnimationTypeCount` is the array bound, not a type of animation). -/
inductive AnimationType where
  | MovingAnimation
  | CreateAnimation
  | DeleteAnimation
  | ResizeAnimation
  | IconResizeAnimation
  deriving DecidableEq, Repr

/-- The property a `QPropertyAnimation` drives. -/
inductive PropertyName where
  | pos
  | opacity
  | size
  | iconSize
  deriving DecidableEq, Repr

/-- The easing curves the helper selects. -/
inductive QEasingCurve where
  | Linear
  | InQuart
  | OutQuart
  deriving DecidableEq, Repr

/-- Lifecycle of an animation (`QAbstractAnimation::State`). -/
inductive AnimState where
  | Stopped
  | Paused
  | Running
  deriving DecidableEq, Repr

/-- The fields of a `QGraphicsWidget` that the helper reads or writes; `animate`
is the answer of `style()->styleHint(QStyle::SH_Widget_Animate)`, `iconSize` the
property of that name of the item widget. -/
structure QGraphicsWidget (R : Type) where
  pos : QPointF R
  size : QSizeF R
  opacity : R
  animate : Bool
  iconSize : Int
  deriving DecidableEq, Repr

/-- Write of an animated value into the property of a widget
(`QObject::setProperty`).  An invalid variant stands for "the value the property
has", and a value of another type than the property's is not written. -/
def QGraphicsWidget.setProperty {R : Type} (w : QGraphicsWidget R) :
    PropertyName → QVariant R → QGraphicsWidget R
  | PropertyName.pos, QVariant.pointF p => { w with pos := p }
  | PropertyName.size, QVariant.sizeF s => { w with size := s }
  | PropertyName.opacity, QVariant.real r => { w with opacity := r }
  | PropertyName.iconSize, QVariant.int n => { w with iconSize := n }
  | _, _ => w

/-- The fields of a `QPropertyAnimation` that the helper reads or writes. -/
structure QPropertyAnimation (R : Type) where
  propertyName : PropertyName
  easingCurve : QEasingCurve
  duration : Int
  currentTime : Int
  startValue : QVariant R
  endValue : QVariant R
  state : AnimState
  signalsBlocked : Bool
  finishedConnected : Bool
  deriving DecidableEq, Repr

namespace QPropertyAnimation

variable {R : Type}

/-- Constructor `new QPropertyAnimation(target, propertyName)`: 250 ms, linear,
stopped, no key values. -/
def create (propertyName : PropertyName) : QPropertyAnimation R :=
  { propertyName := propertyName
    easingCurve := QEasingCurve.Linear
    duration := 250
    currentTime := 0
    startValue := QVariant.invalid
    endValue := QVariant.invalid
    state := AnimState.Stopped
    signalsBlocked := false
    finishedConnected := false }

/-- Setter `QObject::blockSignals`. -/
def blockSignals (a : QPropertyAnimation R) (block : Bool) : QPropertyAnimation R :=
  { a with signalsBlocked := block }

/-- Setter `QVariantAnimation::setDuration`: a negative duration is refused. -/
def setDuration (a : QPropertyAnimation R) (msecs : Int) : QPropertyAnimation R :=
  if msecs < 0 then a else { a with duration := msecs }

/-- Setter `QVariantAnimation::setEasingCurve`. -/
def setEasingCurve (a : QPropertyAnimation R) (c : QEasingCurve) : QPropertyAnimation R :=
  { a with easingCurve := c }

/-- Setter `QVariantAnimation::setStartValue`. -/
def setStartValue (a : QPropertyAnimation R) (v : QVariant R) : QPropertyAnimation R :=
  { a with startValue := v }

/-- Setter `QVariantAnimation::setEndValue`. -/
def setEndValue (a : QPropertyAnimation R) (v : QVariant R) : QPropertyAnimation R :=
  { a with endValue := v }

/-- Slot `QAbstractAnimation::stop`: the animation becomes stopped, its current
time stays where it is.  (An animation that is running is before its end, so the
stop emits no `finished`.) -/
def stop (a : QPropertyAnimation R) : QPropertyAnimation R :=
  { a with state := AnimState.Stopped }

/-- Slot `QAbstractAnimation::start`, the animation's own fields: nothing when
already running; a paused animation resumes; a stopped one is rewound to time 0
and runs, unless time 0 is already its end (duration 0), in which case it stops
at once. -/
def start (a : QPropertyAnimation R) : QPropertyAnimation R :=
  match a.state with
  | AnimState.Running => a
  | AnimState.Paused => { a with state := AnimState.Running }
  | AnimState.Stopped =>
    let a := { a with state := AnimState.Running, currentTime := 0 }
    if a.currentTime = a.duration then a.stop else a

/-- The value `start()` writes into the target property: a stopped animation is
set to time 0, which yields its start value, or its end value when the duration
is 0; a key value that is not set (invalid) stands for the value the property
has.  An animation that is running or paused writes nothing on `start()`. -/
def startWrite (a : QPropertyAnimation R) : QVariant R :=
  match a.state with
  | AnimState.Stopped => if 0 = a.duration then a.endValue else a.startValue
  | _ => QVariant.invalid

/-- Slot `QAbstractAnimation::start` on an animation whose target is `target`:
the animation after the call and the target after the write of the first value. -/
def startOn (a : QPropertyAnimation R) (target : QGraphicsWidget R) :
    QPropertyAnimation R × QGraphicsWidget R :=
  (a.start, target.setProperty a.propertyName a.startWrite)

/-- Connection of the animation's `finished` signal to `slotFinished`. -/
def connectFinished (a : QPropertyAnimation R) : QPropertyAnimation R :=
  { a with finishedConnected := true }

end QPropertyAnimation

/-! ## `QHash<QGraphicsWidget *, QPropertyAnimation *>` -/

/-- Association list standing for a hash from widget addresses to values. -/
abbrev QHash (V : Type) := List (Nat × V)

namespace QHash

variable {V : Type}

/-- Lookup `QHash::value(key)`; `none` is the default-constructed null pointer. -/
def value : QHash V → Nat → Option V
  | [], _ => none
  | (k, v) :: rest, key => if k = key then some v else value rest key

/-- Removal `QHash::remove(key)`. -/
def remove : QHash V → Nat → QHash V
  | [], _ => []
  | (k, v) :: rest, key => if k = key then remove rest key else (k, v) :: remove rest key

/-- Insertion `QHash::insert(key, value)`: the value of an existing key is
replaced, a new key is added. -/
def insert : QHash V → Nat → V → QHash V
  | [], key, val => [(key, val)]
  | (k, v) :: rest, key, val =>
    if k = key then (k, val) :: rest else (k, v) :: insert rest key val

end QHash

/-! ## `KItemListViewAnimation` -/

/-- The helper's members, the widget store its pointers refer to, and the log of
`finished(widget, type)` emissions. -/
structure KItemListViewAnimation (R : Type) where
  m_scrollOrientation : Orientation
  m_scrollOffset : R
  m_animation : AnimationType → QHash (QPropertyAnimation R)
  widgets : Nat → QGraphicsWidget R
  emitted : List (Nat × AnimationType)

namespace KItemListViewAnimation

variable {R : Type}

/-- The enumeration `0 .. AnimationTypeCount - 1` in the order of the enumerators'
values.  The header that declares the enumeration is not among the sources; this
is the order of the case labels of `start`, and `setScrollOffset` below takes the
enumeration as its first argument. -/
def animationTypes : List AnimationType :=
  [AnimationType.MovingAnimation, AnimationType.CreateAnimation,
   AnimationType.DeleteAnimation, AnimationType.ResizeAnimation,
   AnimationType.IconResizeAnimation]

/-- Constructor: vertical orientation, offset 0, empty registries. -/
def init [Zero R] (widgets : Nat → QGraphicsWidget R) : KItemListViewAnimation R :=
  { m_scrollOrientation := Orientation.Vertical
    m_scrollOffset := 0
    m_animation := fun _ => []
    widgets := widgets
    emitted := [] }

/-- Source `setScrollOrientation`. -/
def setScrollOrientation (s : KItemListViewAnimation R) (orientation : Orientation) :
    KItemListViewAnimation R :=
  { s with m_scrollOrientation := orientation }

/-- Source `scrollOrientation`. -/
def scrollOrientation (s : KItemListViewAnimation R) : Orientation :=
  s.m_scrollOrientation

/-- Source `scrollOffset`. -/
def scrollOffset (s : KItemListViewAnimation R) : R :=
  s.m_scrollOffset

/-- The statement pair `if (vertical) p.ry() += diff; else p.rx() += diff;`. -/
def shifted [Add R] (orientation : Orientation) (diff : R) (p : QPointF R) : QPointF R :=
  if orientation = Orientation.Vertical then { p with y := p.y + diff }
  else { p with x := p.x + diff }

/-- Replacement of one widget of the store. -/
def setWidget (widgets : Nat → QGraphicsWidget R) (widget : Nat) (v : QGraphicsWidget R) :
    Nat → QGraphicsWidget R :=
  fun w => if w = widget then v else widgets w

/-- Write `widget->setPos(p)` into the widget store. -/
def setPos (widgets : Nat → QGraphicsWidget R) (widget : Nat) (p : QPointF R) :
    Nat → QGraphicsWidget R :=
  fun w => if w = widget then { widgets widget with pos := p } else widgets w

/-- Write `widget->setOpacity(o)` into the widget store. -/
def setOpacity (widgets : Nat → QGraphicsWidget R) (widget : Nat) (o : R) :
    Nat → QGraphicsWidget R :=
  fun w => if w = widget then { widgets widget with opacity := o } else widgets w

/-- The `MovingAnimation` branch of the loop body of `setScrollOffset`: stop the
animation, move start and end value, restart for the remaining duration.  The
animation restarted is the one that was running on the widget's position, so its
`start()` finds no other animation to stop.  Returns the animation and its target
after the branch. -/
def restartMoved [Add R] [Zero R] (orientation : Orientation) (diff : R)
    (currentPos : QPointF R) (propertyAnim : QPropertyAnimation R)
    (target : QGraphicsWidget R) : QPropertyAnimation R × QGraphicsWidget R :=
  let remainingDuration := propertyAnim.duration - propertyAnim.currentTime
  let block := propertyAnim.signalsBlocked
  let a := propertyAnim.blockSignals true
  let a := a.stop
  let endPos := shifted orientation diff a.endValue.toPointF
  let a := a.setDuration remainingDuration
  let a := a.setStartValue (QVariant.pointF currentPos)
  let a := a.setEndValue (QVariant.pointF endPos)
  let r := a.startOn target
  (r.1.blockSignals block, r.2)

/-- The inner `while (it.hasNext())` loop of `setScrollOffset` over the entries of
`m_animation[type]`: returns the widget store and the entries after the loop. -/
def scrollEntries [Add R] [Zero R] (orientation : Orientation) (diff : R) (type : AnimationType) :
    QHash (QPropertyAnimation R) → (Nat → QGraphicsWidget R) →
      (Nat → QGraphicsWidget R) × QHash (QPropertyAnimation R)
  | [], widgets => (widgets, [])
  | (widget, propertyAnim) :: rest, widgets =>
    let currentPos := shifted orientation diff (widgets widget).pos
    if type = AnimationType.MovingAnimation then
      let moved := restartMoved orientation diff currentPos propertyAnim (widgets widget)
      let r := scrollEntries orientation diff type rest (setWidget widgets widget moved.2)
      (r.1, (widget, moved.1) :: r.2)
    else
      let r := scrollEntries orientation diff type rest (setPos widgets widget currentPos)
      (r.1, (widget, propertyAnim) :: r.2)

/-- One round of the outer `for (type ...)` loop of `setScrollOffset`. -/
def scrollType [Add R] [Zero R] (diff : R) (s : KItemListViewAnimation R) (type : AnimationType) :
    KItemListViewAnimation R :=
  if type = AnimationType.DeleteAnimation then s
  else
    let r := scrollEntries s.m_scrollOrientation diff type (s.m_animation type) s.widgets
    { s with widgets := r.1, m_animation := Function.update s.m_animation type r.2 }

/-- Source `setScrollOffset`; `types` is the enumeration `0 .. AnimationTypeCount - 1`. -/
def setScrollOffset [Add R] [Sub R] [Zero R] (types : List AnimationType)
    (s : KItemListViewAnimation R) (offset : R) : KItemListViewAnimation R :=
  let diff := s.m_scrollOffset - offset
  let s := { s with m_scrollOffset := offset }
  types.foldl (scrollType diff) s

/-- Source `stop(widget, type)`. -/
def stop [Zero R] [One R] (s : KItemListViewAnimation R) (widget : Nat) (type : AnimationType) :
    KItemListViewAnimation R :=
  match QHash.value (s.m_animation type) widget with
  | none => s
  | some _ =>
    let widgets :=
      match type with
      | AnimationType.MovingAnimation => s.widgets
      | AnimationType.CreateAnimation => setOpacity s.widgets widget 1
      | AnimationType.DeleteAnimation => setOpacity s.widgets widget 0
      | AnimationType.ResizeAnimation => s.widgets
      | AnimationType.IconResizeAnimation => s.widgets
    { s with
      widgets := widgets
      m_animation := Function.update s.m_animation type (QHash.remove (s.m_animation type) widget)
      emitted := s.emitted ++ [(widget, type)] }

/-- What the `start()` of a new animation on `property` of `widget` does to the
entries of another hash: the animation that is running on the same target and
property is stopped (it stays registered). -/
def stopRunningOn (property : PropertyName) (widget : Nat) :
    QHash (QPropertyAnimation R) → QHash (QPropertyAnimation R)
  | [] => []
  | (k, a) :: rest =>
    if k = widget ∧ a.propertyName = property ∧ a.state = AnimState.Running
      then (k, a.stop) :: stopRunningOn property widget rest
      else (k, a) :: stopRunningOn property widget rest

/-- The tail of `start` after the `switch`: connect, register and start. -/
def register (s : KItemListViewAnimation R) (widget : Nat) (type : AnimationType)
    (propertyAnim : QPropertyAnimation R) : KItemListViewAnimation R :=
  let a := propertyAnim.connectFinished
  let r := a.startOn (s.widgets widget)
  { s with
    m_animation := fun t =>
      if t = type then QHash.insert (s.m_animation type) widget r.1
      else stopRunningOn a.propertyName widget (s.m_animation t)
    widgets := setWidget s.widgets widget r.2 }

/-- Source `start(widget, type, endValue)`; `pointEq` and `sizeEq` are the
toolkit's `operator==` on `QPointF` and on `QSizeF`. -/
def start [Zero R] [One R] [Neg R] (pointEq : QPointF R → QPointF R → Bool)
    (sizeEq : QSizeF R → QSizeF R → Bool) (s : KItemListViewAnimation R) (widget : Nat)
    (type : AnimationType) (endValue : QVariant R) : KItemListViewAnimation R :=
  let s := stop s widget type
  let animationDuration : Int := if (s.widgets widget).animate then 200 else 1
  match type with
  | AnimationType.MovingAnimation =>
    let newPos := endValue.toPointF
    if pointEq newPos (s.widgets widget).pos = true then s
    else
      let a : QPropertyAnimation R := QPropertyAnimation.create PropertyName.pos
      let a := a.setDuration animationDuration
      let a := a.setEndValue (QVariant.pointF newPos)
      register s widget type a
  | AnimationType.CreateAnimation =>
    let a : QPropertyAnimation R := QPropertyAnimation.create PropertyName.opacity
    let a := a.setEasingCurve QEasingCurve.InQuart
    let a := a.setDuration animationDuration
    let a := a.setStartValue (QVariant.real 0)
    let a := a.setEndValue (QVariant.real 1)
    register s widget type a
  | AnimationType.DeleteAnimation =>
    let a : QPropertyAnimation R := QPropertyAnimation.create PropertyName.opacity
    let a := a.setEasingCurve QEasingCurve.OutQuart
    let a := a.setDuration animationDuration
    let a := a.setStartValue (QVariant.real 1)
    let a := a.setEndValue (QVariant.real 0)
    register s widget type a
  | AnimationType.ResizeAnimation =>
    let newSize := endValue.toSizeF
    if sizeEq newSize (s.widgets widget).size = true then s
    else
      let a : QPropertyAnimation R := QPropertyAnimation.create PropertyName.size
      let a := a.setDuration animationDuration
      let a := a.setEndValue (QVariant.sizeF newSize)
      register s widget type a
  | AnimationType.IconResizeAnimation =>
    let a : QPropertyAnimation R := QPropertyAnimation.create PropertyName.iconSize
    let a := a.setDuration animationDuration
    let a := a.setEndValue endValue
    register s widget type a

/-- Source `isStarted(widget, type)`: the registered pointer converted to `bool`. -/
def isStarted (s : KItemListViewAnimation R) (widget : Nat) (type : AnimationType) : Bool :=
  (QHash.value (s.m_animation type) widget).isSome

end KItemListViewAnimation

/-! ## `ViewPropsProgressInfo`

The two jobs are asynchronous objects of other components.  A job pointer of the
dialog is an `Option`; what a job answers when the dialog queries it
(`error()`, `totalSubdirs()`, `progress()`) is an argument of the operation that
performs the query.  Calls the dialog makes on other objects are appended to the
log `calls`.
-/

/-- Text of the label: one of the two localized templates with its argument. -/
inductive LabelText where
  | countingFolders (n : Int)
  | folders (n : Int)
  deriving DecidableEq, Repr

/-- The range and value of a `QProgressBar`. -/
structure QProgressBar where
  minimum : Int
  maximum : Int
  value : Int
  deriving DecidableEq, Repr

namespace QProgressBar

/-- Constructor: range 0 to 100, value -1. -/
def create : QProgressBar :=
  { minimum := 0, maximum := 100, value := -1 }

/-- Slot `QProgressBar::reset`. -/
def reset (b : QProgressBar) : QProgressBar :=
  if b.minimum = -2147483648 then { b with value := -2147483648 }
  else { b with value := b.minimum - 1 }

/-- Slot `QProgressBar::setRange`. -/
def setRange (b : QProgressBar) (minimum maximum : Int) : QProgressBar :=
  if minimum ≠ b.minimum ∨ maximum ≠ b.maximum then
    let b := { b with minimum := minimum, maximum := max minimum maximum }
    if b.value < b.minimum - 1 ∨ b.value > b.maximum then b.reset else b
  else b

/-- Slot `QProgressBar::setMinimum`. -/
def setMinimum (b : QProgressBar) (minimum : Int) : QProgressBar :=
  b.setRange minimum (max b.maximum minimum)

/-- Slot `QProgressBar::setMaximum`. -/
def setMaximum (b : QProgressBar) (maximum : Int) : QProgressBar :=
  b.setRange (min b.minimum maximum) maximum

/-- Slot `QProgressBar::setValue`: a value outside a non-trivial range is ignored. -/
def setValue (b : QProgressBar) (value : Int) : QProgressBar :=
  if b.value = value ∨ ((value > b.maximum ∨ value < b.minimum) ∧ (b.maximum ≠ 0 ∨ b.minimum ≠ 0))
  then b else { b with value := value }

end QProgressBar

/-- The view properties object owned by the dialog. -/
structure ViewProperties where
  dir : Nat
  props : Nat
  autoSaveEnabled : Bool
  deriving DecidableEq, Repr

/-- The job returned by `KIO::directorySize(dir)`. -/
structure DirectorySizeJob where
  dir : Nat
  deriving DecidableEq, Repr

/-- The job constructed by `new ApplyViewPropsJob(m_dir, *m_viewProps)`. -/
structure ApplyViewPropsJob where
  dir : Nat
  viewProps : ViewProperties
  deriving DecidableEq, Repr

/-- Calls the dialog makes on the jobs, its timer and its base class. -/
inductive Call where
  | timerStart (msec : Int)
  | timerStop
  | killDirSizeJob
  | killApplyViewPropsJob
  | newApplyViewPropsJob
  | dialogReject
  | dialogCloseEvent
  deriving DecidableEq, Repr

/-- The members of the dialog and the log of its outgoing calls. -/
structure ViewPropsProgressInfo where
  m_dir : Nat
  m_viewProps : ViewProperties
  m_label : LabelText
  m_progressBar : QProgressBar
  m_dirSizeJob : Option DirectorySizeJob
  m_applyViewPropsJob : Option ApplyViewPropsJob
  calls : List Call
  deriving DecidableEq, Repr

namespace ViewPropsProgressInfo

/-- Constructor `ViewPropsProgressInfo(parent, dir, viewProps)`. -/
def create (dir : Nat) (viewProps : Nat) : ViewPropsProgressInfo :=
  let bar := QProgressBar.create
  let bar := bar.setMinimum 0
  let bar := bar.setMaximum 0
  let bar := bar.setValue 0
  { m_dir := dir
    m_viewProps := { dir := dir, props := viewProps, autoSaveEnabled := false }
    m_label := LabelText.countingFolders 0
    m_progressBar := bar
    m_dirSizeJob := some { dir := dir }
    m_applyViewPropsJob := none
    calls := [Call.timerStart 300] }

/-- Source `reject`. -/
def reject (s : ViewPropsProgressInfo) : ViewPropsProgressInfo :=
  let s :=
    match s.m_dirSizeJob with
    | some _ => { s with m_dirSizeJob := none, calls := s.calls ++ [Call.killDirSizeJob] }
    | none => s
  let s :=
    match s.m_applyViewPropsJob with
    | some _ =>
      { s with m_applyViewPropsJob := none, calls := s.calls ++ [Call.killApplyViewPropsJob] }
    | none => s
  { s with calls := s.calls ++ [Call.dialogReject] }

/-- Source `closeEvent`.  The base class handler `QDialog::closeEvent` calls the
virtual `reject()` when the dialog is visible; `visible` is that answer of
`isVisible()`. -/
def closeEvent (s : ViewPropsProgressInfo) (visible : Bool) : ViewPropsProgressInfo :=
  let s := { s with calls := s.calls ++ [Call.timerStop] }
  let s := { s with m_applyViewPropsJob := none }
  let s := { s with calls := s.calls ++ [Call.dialogCloseEvent] }
  if visible then s.reject else s

/-- Source `updateProgress`; `subdirs` is the answer of `m_dirSizeJob->totalSubdirs()`
and `progress` the answer of `m_applyViewPropsJob->progress()`, each as the `int`
the source reads it into. -/
def updateProgress (s : ViewPropsProgressInfo) (subdirs progress : Int) : ViewPropsProgressInfo :=
  let s :=
    match s.m_dirSizeJob with
    | some _ => { s with m_label := LabelText.countingFolders subdirs }
    | none => s
  match s.m_applyViewPropsJob with
  | some _ => { s with m_progressBar := s.m_progressBar.setValue progress }
  | none => s

/-- Source `applyViewProperties`; `error` is the answer of `m_dirSizeJob->error()`
and `subdirs` the answer of `m_dirSizeJob->totalSubdirs()` as the `int` the source
reads it into.  The slot dereferences `m_dirSizeJob`: with a null pointer there is
no result. -/
def applyViewProperties (s : ViewPropsProgressInfo) (error subdirs : Int) :
    Option ViewPropsProgressInfo :=
  match s.m_dirSizeJob with
  | none => none
  | some _ =>
    if error ≠ 0 then some s
    else
      let s := { s with m_label := LabelText.folders subdirs }
      let s := { s with m_progressBar := s.m_progressBar.setMaximum subdirs }
      let s := { s with m_dirSizeJob := none }
      some { s with
        m_applyViewPropsJob := some { dir := s.m_dir, viewProps := s.m_viewProps }
        calls := s.calls ++ [Call.newApplyViewPropsJob] }

/-- The slots and handlers that drive the dialog, with the answers they read. -/
inductive Event where
  | updateProgress (subdirs progress : Int)
  | applyViewProperties (error subdirs : Int)
  | reject
  | closeEvent (visible : Bool)
  deriving DecidableEq, Repr

/-- One event; `applyViewProperties` needs the directory-size job pointer set. -/
def step (s : ViewPropsProgressInfo) : Event → Option ViewPropsProgressInfo
  | Event.updateProgress subdirs progress => some (s.updateProgress subdirs progress)
  | Event.applyViewProperties error subdirs => s.applyViewProperties error subdirs
  | Event.reject => some s.reject
  | Event.closeEvent visible => some (s.closeEvent visible)

/-- A sequence of events, from left to right. -/
def run (s : ViewPropsProgressInfo) : List Event → Option ViewPropsProgressInfo
  | [] => some s
  | e :: es =>
    match step s e with
    | none => none
    | some s1 => run s1 es

end ViewPropsProgressInfo

/-! ## Concrete states -/

namespace KItemListViewAnimation

/-- A store in which every widget sits at the origin with size 10 x 10. -/
def demoWidgets : Nat → QGraphicsWidget Int :=
  fun _ => { pos := { x := 0, y := 0 }, size := { width := 10, height := 10 },
             opacity := 1, animate := true, iconSize := 48 }

/-- The state after `start(7, CreateAnimation, _)` and
`start(7, ResizeAnimation, QSizeF(20, 20))` on a freshly constructed helper. -/
def demoCreateResize : KItemListViewAnimation Int :=
  start QPointF.fuzzyEq QSizeF.fuzzyEq
    (start QPointF.fuzzyEq QSizeF.fuzzyEq (init demoWidgets) 7
      AnimationType.CreateAnimation QVariant.invalid)
    7 AnimationType.ResizeAnimation (QVariant.sizeF { width := 20, height := 20 })

/-- A moving animation 80 ms into its 200 ms, heading for the point (4, 8). -/
def demoMoving : QPropertyAnimation Int :=
  { propertyName := PropertyName.pos
    easingCurve := QEasingCurve.Linear
    duration := 200
    currentTime := 80
    startValue := QVariant.invalid
    endValue := QVariant.pointF { x := 4, y := 8 }
    state := AnimState.Running
    signalsBlocked := false
    finishedConnected := true }

/-- A fading animation of a widget that is being deleted, 10 ms into its 200 ms. -/
def demoFading : QPropertyAnimation Int :=
  { propertyName := PropertyName.opacity
    easingCurve := QEasingCurve.OutQuart
    duration := 200
    currentTime := 10
    startValue := QVariant.real 1
    endValue := QVariant.real 0
    state := AnimState.Running
    signalsBlocked := false
    finishedConnected := true }

/-- Widget 5 is moving, widget 3 is being deleted; scroll offset 30, vertical. -/
def demoScrolling : KItemListViewAnimation Int :=
  { m_scrollOrientation := Orientation.Vertical
    m_scrollOffset := 30
    m_animation := fun t =>
      match t with
      | AnimationType.MovingAnimation => [(5, demoMoving)]
      | AnimationType.DeleteAnimation => [(3, demoFading)]
      | _ => []
    widgets := demoWidgets
    emitted := [] }

end KItemListViewAnimation

/-! ## Lemmas on the hash model -/

namespace QHash

variable {V : Type}

theorem remove_of_value_none (h : QHash V) (key : Nat) (hnone : value h key = none) :
    remove h key = h := by
  induction h with
  | nil => rfl
  | cons e rest ih =>
    obtain ⟨k, v⟩ := e
    by_cases hk : k = key
    · simp [value, hk] at hnone
    · simp [value, hk] at hnone
      simp [remove, hk, ih hnone]

end QHash

/-! ## Lemmas on `setScrollOffset` -/

namespace KItemListViewAnimation

variable {R : Type}

theorem setWidget_of_ne (widgets : Nat → QGraphicsWidget R) {widget w : Nat}
    (v : QGraphicsWidget R) (hne : w ≠ widget) : setWidget widgets widget v w = widgets w := by
  simp only [setWidget, if_neg hne]

theorem setPos_of_ne (widgets : Nat → QGraphicsWidget R) {widget w : Nat} (p : QPointF R)
    (hne : w ≠ widget) : setPos widgets widget p w = widgets w := by
  simp only [setPos, if_neg hne]

/-- The inner loop leaves every widget that has no entry in the hash as it was. -/
theorem scrollEntries_widgets_of_absent [Add R] [Zero R] (orientation : Orientation) (diff : R)
    (type : AnimationType) (h : QHash (QPropertyAnimation R)) (widgets : Nat → QGraphicsWidget R)
    (w : Nat) (habsent : QHash.value h w = none) :
    (scrollEntries orientation diff type h widgets).1 w = widgets w := by
  induction h generalizing widgets with
  | nil => rfl
  | cons e rest ih =>
    obtain ⟨k, a⟩ := e
    by_cases hk : k = w
    · simp [QHash.value, hk] at habsent
    · simp only [QHash.value, if_neg hk] at habsent
      by_cases ht : type = AnimationType.MovingAnimation
      · simp only [scrollEntries, if_pos ht]
        rw [ih _ habsent]
        exact setWidget_of_ne widgets _ (fun hc => hk hc.symm)
      · simp only [scrollEntries, if_neg ht]
        rw [ih _ habsent]
        exact setPos_of_ne widgets _ (fun hc => hk hc.symm)

/-- The inner loop keeps the keys: a widget without an entry stays without one. -/
theorem scrollEntries_value_none [Add R] [Zero R] (orientation : Orientation) (diff : R)
    (type : AnimationType) (h : QHash (QPropertyAnimation R)) (widgets : Nat → QGraphicsWidget R)
    (w : Nat) (habsent : QHash.value h w = none) :
    QHash.value (scrollEntries orientation diff type h widgets).2 w = none := by
  induction h generalizing widgets with
  | nil => rfl
  | cons e rest ih =>
    obtain ⟨k, a⟩ := e
    by_cases hk : k = w
    · simp [QHash.value, hk] at habsent
    · simp only [QHash.value, if_neg hk] at habsent
      by_cases ht : type = AnimationType.MovingAnimation
      · simp only [scrollEntries, if_pos ht, QHash.value, if_neg hk]
        exact ih _ habsent
      · simp only [scrollEntries, if_neg ht, QHash.value, if_neg hk]
        exact ih _ habsent

/-- The `MovingAnimation` round of the inner loop restarts the animation that is
registered for a widget, from the position the widget had before the round. -/
theorem scrollEntries_moving_value [Add R] [Zero R] (orientation : Orientation) (diff : R)
    (h : QHash (QPropertyAnimation R)) (widgets : Nat → QGraphicsWidget R) (w : Nat)
    (a : QPropertyAnimation R) (hreg : QHash.value h w = some a) :
    QHash.value (scrollEntries orientation diff AnimationType.MovingAnimation h widgets).2 w
      = some (restartMoved orientation diff (shifted orientation diff (widgets w).pos) a
          (widgets w)).1 := by
  induction h generalizing widgets with
  | nil => simp [QHash.value] at hreg
  | cons e rest ih =>
    obtain ⟨k, b⟩ := e
    by_cases hk : k = w
    · simp only [QHash.value, if_pos hk, Option.some.injEq] at hreg
      simp only [scrollEntries, if_true, QHash.value, if_pos hk, hreg, hk]
    · simp only [QHash.value, if_neg hk] at hreg
      simp only [scrollEntries, if_true, QHash.value, if_neg hk]
      rw [ih _ hreg, setWidget_of_ne widgets _ (fun hc => hk hc.symm)]

theorem scrollType_animation_of_ne [Add R] [Zero R] (diff : R) (s : KItemListViewAnimation R)
    {type t : AnimationType} (hne : t ≠ type) :
    (scrollType diff s type).m_animation t = s.m_animation t := by
  unfold scrollType
  split
  · rfl
  · simp only [Function.update_noteq hne]

theorem scrollType_orientation [Add R] [Zero R] (diff : R) (s : KItemListViewAnimation R)
    (type : AnimationType) :
    (scrollType diff s type).m_scrollOrientation = s.m_scrollOrientation := by
  unfold scrollType
  split <;> rfl

theorem scrollType_offset [Add R] [Zero R] (diff : R) (s : KItemListViewAnimation R)
    (type : AnimationType) :
    (scrollType diff s type).m_scrollOffset = s.m_scrollOffset := by
  unfold scrollType
  split <;> rfl

theorem foldl_scrollType_animation_of_not_mem [Add R] [Zero R] (diff : R)
    (types : List AnimationType) (s : KItemListViewAnimation R) (t : AnimationType)
    (hnot : t ∉ types) :
    (types.foldl (scrollType diff) s).m_animation t = s.m_animation t := by
  induction types generalizing s with
  | nil => rfl
  | cons type rest ih =>
    simp only [List.mem_cons, not_or] at hnot
    simp only [List.foldl_cons]
    rw [ih _ hnot.2, scrollType_animation_of_ne diff s hnot.1]

theorem foldl_scrollType_offset [Add R] [Zero R] (diff : R) (types : List AnimationType)
    (s : KItemListViewAnimation R) :
    (types.foldl (scrollType diff) s).m_scrollOffset = s.m_scrollOffset := by
  induction types generalizing s with
  | nil => rfl
  | cons type rest ih =>
    simp only [List.foldl_cons]
    rw [ih, scrollType_offset]

end KItemListViewAnimation

/-! ## Lemmas on `stop` and `start` -/

namespace KItemListViewAnimation

variable {R : Type}

theorem restartMoved_fields [Add R] [Zero R] (orientation : Orientation) (diff : R)
    (currentPos : QPointF R) (a : QPropertyAnimation R) (target : QGraphicsWidget R)
    (htime : a.currentTime < a.duration) :
    (restartMoved orientation diff currentPos a target).1.duration = a.duration - a.currentTime ∧
    (restartMoved orientation diff currentPos a target).1.currentTime = 0 ∧
    (restartMoved orientation diff currentPos a target).1.startValue
      = QVariant.pointF currentPos ∧
    (restartMoved orientation diff currentPos a target).1.endValue
      = QVariant.pointF (shifted orientation diff a.endValue.toPointF) ∧
    (restartMoved orientation diff currentPos a target).1.state = AnimState.Running ∧
    (restartMoved orientation diff currentPos a target).1.signalsBlocked = a.signalsBlocked := by
  have hnn : ¬ a.duration - a.currentTime < 0 := by omega
  have hpos : ¬ (0 : Int) = a.duration - a.currentTime := by omega
  simp [restartMoved, QPropertyAnimation.blockSignals, QPropertyAnimation.stop,
    QPropertyAnimation.setDuration, QPropertyAnimation.setStartValue,
    QPropertyAnimation.setEndValue, QPropertyAnimation.start, QPropertyAnimation.startOn,
    hnn, hpos]

end KItemListViewAnimation

/-! ## A widget with a single registration is shifted once -/

namespace QHash

variable {V : Type}

theorem value_none_of_count_zero (h : QHash V) (key : Nat)
    (hcount : (h.map Prod.fst).count key = 0) : value h key = none := by
  induction h with
  | nil => rfl
  | cons e rest ih =>
    obtain ⟨k, v⟩ := e
    by_cases hk : k = key
    · subst hk
      simp at hcount
    · have hrest : (rest.map Prod.fst).count key = 0 := by
        simpa [List.count_cons, hk] using hcount
      simp only [value, if_neg hk]
      exact ih hrest

end QHash

namespace KItemListViewAnimation

variable {R : Type}

/-- The inner loop keeps the keys of the hash, in their order. -/
theorem scrollEntries_keys [Add R] [Zero R] (orientation : Orientation) (diff : R)
    (type : AnimationType) (h : QHash (QPropertyAnimation R)) (widgets : Nat → QGraphicsWidget R) :
    (scrollEntries orientation diff type h widgets).2.map Prod.fst = h.map Prod.fst := by
  induction h generalizing widgets with
  | nil => rfl
  | cons e rest ih =>
    obtain ⟨k, a⟩ := e
    by_cases ht : type = AnimationType.MovingAnimation
    · simp only [scrollEntries, if_pos ht, List.map_cons, ih]
    · simp only [scrollEntries, if_neg ht, List.map_cons, ih]

/-- A round of the inner loop for a type other than `MovingAnimation` moves a
widget that has exactly one entry by one shift. -/
theorem scrollEntries_single [Add R] [Zero R] (orientation : Orientation) (diff : R)
    (type : AnimationType) (hmoving : type ≠ AnimationType.MovingAnimation)
    (h : QHash (QPropertyAnimation R)) (widgets : Nat → QGraphicsWidget R) (w : Nat)
    (hcount : (h.map Prod.fst).count w = 1) :
    (scrollEntries orientation diff type h widgets).1 w
      = { widgets w with pos := shifted orientation diff (widgets w).pos } := by
  induction h generalizing widgets with
  | nil => simp at hcount
  | cons e rest ih =>
    obtain ⟨k, a⟩ := e
    simp only [scrollEntries, if_neg hmoving]
    by_cases hk : k = w
    · subst hk
      have hrest : (rest.map Prod.fst).count k = 0 := by
        simpa [List.count_cons] using hcount
      rw [scrollEntries_widgets_of_absent _ _ _ _ _ _
        (QHash.value_none_of_count_zero rest k hrest)]
      simp only [setPos, if_true]
    · have hrest : (rest.map Prod.fst).count w = 1 := by
        simpa [List.count_cons, hk] using hcount
      have hw : w ≠ k := fun hc => hk hc.symm
      rw [ih _ hrest, setPos_of_ne widgets _ hw]

/-- The rounds of the outer loop over types under which a widget has no entry
leave the widget as it was. -/
theorem foldl_scrollType_widgets_of_absent [Add R] [Zero R] (diff : R)
    (types : List AnimationType) (s : KItemListViewAnimation R) (w : Nat)
    (habsent : ∀ t ∈ types, t ≠ AnimationType.DeleteAnimation →
      QHash.value (s.m_animation t) w = none) :
    (types.foldl (scrollType diff) s).widgets w = s.widgets w := by
  induction types generalizing s with
  | nil => rfl
  | cons type rest ih =>
    simp only [List.foldl_cons]
    have hstep : (scrollType diff s type).widgets w = s.widgets w := by
      by_cases ht : type = AnimationType.DeleteAnimation
      · simp only [scrollType, if_pos ht]
      · simp only [scrollType, if_neg ht]
        exact scrollEntries_widgets_of_absent _ _ _ _ _ _
          (habsent type (List.mem_cons_self _ _) ht)
    have hrest : ∀ t ∈ rest, t ≠ AnimationType.DeleteAnimation →
        QHash.value ((scrollType diff s type).m_animation t) w = none := by
      intro t hmem htd
      have hnone := habsent t (List.mem_cons_of_mem _ hmem) htd
      by_cases htt : t = type
      · subst htt
        simp only [scrollType, if_neg htd, Function.update_same]
        exact scrollEntries_value_none _ _ _ _ _ _ hnone
      · rw [scrollType_animation_of_ne diff s htt]
        exact hnone
    rw [ih _ hrest, hstep]

/-- What `setScrollOffset` achieves for a widget with a single registration: when
the widget has exactly one entry under one type `type` that is neither
`MovingAnimation` nor `DeleteAnimation`, `type` is enumerated once, and the widget
has no entry under any other enumerated type but `DeleteAnimation`, the call
shifts its position by (previous offset - new offset) along the scroll axis, once,
and changes nothing else of the widget. -/
theorem setScrollOffset_single_registration [Add R] [Sub R] [Zero R]
    (before later : List AnimationType) (type : AnimationType)
    (s : KItemListViewAnimation R) (offset : R) (w : Nat)
    (hmoving : type ≠ AnimationType.MovingAnimation)
    (hdelete : type ≠ AnimationType.DeleteAnimation)
    (hbefore : type ∉ before) (hlater : type ∉ later)
    (hcount : ((s.m_animation type).map Prod.fst).count w = 1)
    (hother : ∀ t, t ≠ type → t ≠ AnimationType.DeleteAnimation →
      QHash.value (s.m_animation t) w = none) :
    (setScrollOffset (before ++ type :: later) s offset).widgets w
      = { s.widgets w with
          pos := shifted s.m_scrollOrientation (s.m_scrollOffset - offset) (s.widgets w).pos } := by
  simp only [setScrollOffset, List.foldl_append, List.foldl_cons]
  generalize hs0 : ({ s with m_scrollOffset := offset } : KItemListViewAnimation R) = s0
  generalize hd : s.m_scrollOffset - offset = diff
  have hw0 : s0.widgets = s.widgets := by rw [← hs0]
  have ha0 : s0.m_animation = s.m_animation := by rw [← hs0]
  have ho0 : s0.m_scrollOrientation = s.m_scrollOrientation := by rw [← hs0]
  generalize hs1 : before.foldl (scrollType diff) s0 = s1
  have hw1 : s1.widgets w = s.widgets w := by
    rw [← hs1, foldl_scrollType_widgets_of_absent diff before s0 w, hw0]
    intro t hmem htd
    rw [ha0]
    exact hother t (fun hc => hbefore (hc ▸ hmem)) htd
  have ha1 : s1.m_animation type = s.m_animation type := by
    rw [← hs1, foldl_scrollType_animation_of_not_mem diff before s0 type hbefore, ha0]
  have ho1 : s1.m_scrollOrientation = s.m_scrollOrientation := by
    rw [← hs1, ← ho0]
    clear hs1 hw0 ha0 ho0 hs0
    induction before generalizing s0 with
    | nil => rfl
    | cons b bs ih =>
      simp only [List.mem_cons, not_or] at hbefore
      simp only [List.foldl_cons]
      rw [ih hbefore.2, scrollType_orientation]
  have ha1o : ∀ t, t ≠ type → t ≠ AnimationType.DeleteAnimation →
      QHash.value (s1.m_animation t) w = none := by
    intro t htt htd
    have hinv : ∀ (l : List AnimationType) (u : KItemListViewAnimation R),
        QHash.value (u.m_animation t) w = none →
        QHash.value ((l.foldl (scrollType diff) u).m_animation t) w = none := by
      intro l
      induction l with
      | nil => intro u hu; exact hu
      | cons b bs ih =>
        intro u hu
        simp only [List.foldl_cons]
        apply ih
        by_cases hb : t = b
        · subst hb
          simp only [scrollType, if_neg htd, Function.update_same]
          exact scrollEntries_value_none _ _ _ _ _ _ hu
        · rw [scrollType_animation_of_ne diff u hb]
          exact hu
    rw [← hs1]
    apply hinv
    rw [ha0]
    exact hother t htt htd
  rw [foldl_scrollType_widgets_of_absent diff later (scrollType diff s1 type) w]
  · simp only [scrollType, if_neg hdelete]
    rw [scrollEntries_single _ _ _ hmoving _ _ _ (by rw [ha1]; exact hcount), hw1, ho1]
  · intro t hmem htd
    have htt : t ≠ type := fun hc => hlater (hc ▸ hmem)
    rw [scrollType_animation_of_ne diff s1 htt]
    exact ha1o t htt htd

end KItemListViewAnimation


/-! ## The claims on `KItemListViewAnimation` -/

namespace KItemListViewAnimation

variable {R : Type}

/-- C1: evaluation of `setScrollOffset` at a widget that has a running
`CreateAnimation` and a running `ResizeAnimation`.  Widget 7 sits at (0, 0), the
orientation is vertical and the offset goes from 0 to 10, so a shift by exactly
(previous offset - new offset) would end at (0, -10); the loop visits the widget
once for each of its two registrations and it ends at (0, -20).  The offset
itself is the new one. -/
theorem setScrollOffset_shifts_twice :
    isStarted demoCreateResize 7 AnimationType.CreateAnimation = true ∧
    isStarted demoCreateResize 7 AnimationType.ResizeAnimation = true ∧
    isStarted demoCreateResize 7 AnimationType.MovingAnimation = false ∧
    demoCreateResize.m_scrollOrientation = Orientation.Vertical ∧
    scrollOffset demoCreateResize = 0 ∧
    (demoCreateResize.widgets 7).pos = { x := 0, y := 0 } ∧
    ((setScrollOffset animationTypes demoCreateResize 10).widgets 7).pos
      = { x := 0, y := -20 } ∧
    ((setScrollOffset animationTypes demoCreateResize 10).widgets 7).pos
      ≠ { x := 0, y := 0 + (0 - 10) } ∧
    scrollOffset (setScrollOffset animationTypes demoCreateResize 10) = 10 := by
  decide

/-- C3: `setScrollOffset` restarts every running `MovingAnimation` for its
remaining duration.  The enumeration of the types starts with `MovingAnimation`
(its value is 0) and names it once.  For an animation `a` registered for widget
`w` whose current time is before its duration (it is running), after the call the animation
registered for `w` has duration `a.duration - a.currentTime` and is at time 0 of
it (it was stopped and started again), its start value is
the position of `w` shifted by (previous offset - new offset) along the scroll
axis, its end value is the previous end value shifted the same way, it is
running, and its signals-blocked flag is the one `a` had. -/
theorem setScrollOffset_moving_restarted [Add R] [Sub R] [Zero R] (rest : List AnimationType)
    (s : KItemListViewAnimation R) (offset : R) (w : Nat) (a : QPropertyAnimation R)
    (honce : AnimationType.MovingAnimation ∉ rest)
    (hreg : QHash.value (s.m_animation AnimationType.MovingAnimation) w = some a)
    (htime : a.currentTime < a.duration) :
    ∃ b : QPropertyAnimation R,
      QHash.value ((setScrollOffset (AnimationType.MovingAnimation :: rest) s offset).m_animation
        AnimationType.MovingAnimation) w = some b ∧
      b.duration = a.duration - a.currentTime ∧
      b.currentTime = 0 ∧
      b.startValue = QVariant.pointF
        (if s.m_scrollOrientation = Orientation.Vertical
          then { x := (s.widgets w).pos.x, y := (s.widgets w).pos.y + (s.m_scrollOffset - offset) }
          else { x := (s.widgets w).pos.x + (s.m_scrollOffset - offset), y := (s.widgets w).pos.y }) ∧
      b.endValue = QVariant.pointF
        (if s.m_scrollOrientation = Orientation.Vertical
          then { x := a.endValue.toPointF.x, y := a.endValue.toPointF.y + (s.m_scrollOffset - offset) }
          else { x := a.endValue.toPointF.x + (s.m_scrollOffset - offset), y := a.endValue.toPointF.y }) ∧
      b.state = AnimState.Running ∧
      b.signalsBlocked = a.signalsBlocked := by
  have hf := restartMoved_fields s.m_scrollOrientation (s.m_scrollOffset - offset)
    (shifted s.m_scrollOrientation (s.m_scrollOffset - offset) (s.widgets w).pos) a
    (s.widgets w) htime
  refine ⟨_, ?_, hf.1, hf.2.1, ?_, ?_, hf.2.2.2.2.1, hf.2.2.2.2.2⟩
  · simp only [setScrollOffset, List.foldl_cons]
    rw [foldl_scrollType_animation_of_not_mem _ _ _ _ honce]
    simp only [scrollType, if_neg (by decide : ¬ AnimationType.MovingAnimation
      = AnimationType.DeleteAnimation), Function.update_same]
    exact scrollEntries_moving_value _ _ _ _ w a hreg
  · rw [hf.2.2.1]
    simp only [shifted]
  · rw [hf.2.2.2.1]
    simp only [shifted]

/-- Witness of C3 on `demoScrolling`: the moving animation of widget 5 is 80 ms
into its 200 ms and heads for (4, 8); a scroll from offset 30 to 12 leaves it at
time 0 of 120 ms, with start value (0, 18) and end value (4, 26). -/
theorem setScrollOffset_moving_restarted_witness :
    demoMoving.currentTime < demoMoving.duration ∧
    ∃ b : QPropertyAnimation Int,
      QHash.value ((setScrollOffset animationTypes demoScrolling 12).m_animation
        AnimationType.MovingAnimation) 5 = some b ∧
      b.duration = 120 ∧
      b.currentTime = 0 ∧
      b.startValue = QVariant.pointF { x := (0 : Int), y := 18 } ∧
      b.endValue = QVariant.pointF { x := (4 : Int), y := 26 } ∧
      b.state = AnimState.Running ∧
      b.signalsBlocked = false :=
  ⟨by decide,
   setScrollOffset_moving_restarted
     [AnimationType.CreateAnimation, AnimationType.DeleteAnimation,
      AnimationType.ResizeAnimation, AnimationType.IconResizeAnimation]
     demoScrolling 12 5 demoMoving (by decide) rfl (by decide)⟩

end KItemListViewAnimation

namespace KItemListViewAnimation

variable {R : Type}

end KItemListViewAnimation

/-! ## The claims on `ViewPropsProgressInfo` -/

namespace QProgressBar

theorem setRange_maximum (b : QProgressBar) (minimum maximum : Int) (hle : minimum ≤ maximum) :
    (b.setRange minimum maximum).maximum = maximum := by
  unfold setRange
  split
  · dsimp only
    split
    · simp only [reset]
      split <;> simp [max_eq_right hle]
    · simp [max_eq_right hle]
  · rename_i hsame
    simp only [not_or, not_not] at hsame
    exact hsame.2.symm

theorem setMaximum_maximum (b : QProgressBar) (maximum : Int) :
    (b.setMaximum maximum).maximum = maximum :=
  setRange_maximum b _ maximum (min_le_right _ _)

end QProgressBar

namespace ViewPropsProgressInfo

/-- C5: `applyViewProperties`, run while the directory-size job pointer is set,
returns, and it constructs the `ApplyViewPropsJob` exactly when the directory-size
job reports no error.  In that case the maximum of the progress bar is the job's
count of subdirectories, the label shows the "Folders: n" text for that count, the
directory-size job pointer is null and the apply job pointer holds the new job.
When the job reports an error the whole dialog state (label, progress bar, both
job pointers) is as it was. -/
theorem applyViewProperties_phase_switch (s : ViewPropsProgressInfo) (error subdirs : Int)
    (hjob : s.m_dirSizeJob.isSome = true) :
    ∃ after, applyViewProperties s error subdirs = some after ∧
      (after.calls = s.calls ++ [Call.newApplyViewPropsJob] ↔ error = 0) ∧
      (error = 0 →
        after.m_progressBar.maximum = subdirs ∧
        after.m_label = LabelText.folders subdirs ∧
        after.m_dirSizeJob = none ∧
        after.m_applyViewPropsJob = some { dir := s.m_dir, viewProps := s.m_viewProps }) ∧
      (error ≠ 0 → after = s) := by
  cases hj : s.m_dirSizeJob with
  | none => simp [hj] at hjob
  | some j =>
    by_cases he : error = 0
    · refine ⟨{ s with
          m_label := LabelText.folders subdirs
          m_progressBar := s.m_progressBar.setMaximum subdirs
          m_dirSizeJob := none
          m_applyViewPropsJob := some { dir := s.m_dir, viewProps := s.m_viewProps }
          calls := s.calls ++ [Call.newApplyViewPropsJob] }, ?_, ?_, ?_, ?_⟩
      · simp only [applyViewProperties, hj, he, ne_eq, not_true_eq_false, if_false]
      · simp [he]
      · intro _
        exact ⟨QProgressBar.setMaximum_maximum _ _, rfl, rfl, rfl⟩
      · intro hc
        exact absurd he hc
    · refine ⟨s, ?_, ?_, ?_, ?_⟩
      · simp only [applyViewProperties, hj, ne_eq, he, not_false_eq_true, if_true]
      · simp [he]
      · intro hc
        exact absurd hc he
      · intro _
        rfl

/-- Witness of C5: on the freshly constructed dialog, a directory-size job that
ends without error after counting 42 subdirectories switches the phases. -/
theorem applyViewProperties_phase_switch_witness :
    (create 1 2).m_dirSizeJob.isSome = true ∧
    ∃ after, applyViewProperties (create 1 2) 0 42 = some after ∧
      (after.calls = (create 1 2).calls ++ [Call.newApplyViewPropsJob] ↔ (0 : Int) = 0) ∧
      ((0 : Int) = 0 →
        after.m_progressBar.maximum = 42 ∧
        after.m_label = LabelText.folders 42 ∧
        after.m_dirSizeJob = none ∧
        after.m_applyViewPropsJob
          = some { dir := (create 1 2).m_dir, viewProps := (create 1 2).m_viewProps }) ∧
      ((0 : Int) ≠ 0 → after = create 1 2) :=
  ⟨by decide, applyViewProperties_phase_switch (create 1 2) 0 42 (by decide)⟩

end ViewPropsProgressInfo

namespace ViewPropsProgressInfo

theorem updateProgress_pointers (s : ViewPropsProgressInfo) (subdirs progress : Int) :
    (s.updateProgress subdirs progress).m_dirSizeJob = s.m_dirSizeJob ∧
    (s.updateProgress subdirs progress).m_applyViewPropsJob = s.m_applyViewPropsJob := by
  cases hd : s.m_dirSizeJob <;> cases ha : s.m_applyViewPropsJob <;>
    simp [updateProgress, hd, ha]

theorem reject_pointers (s : ViewPropsProgressInfo) :
    s.reject.m_dirSizeJob = none ∧ s.reject.m_applyViewPropsJob = none := by
  cases hd : s.m_dirSizeJob <;> cases ha : s.m_applyViewPropsJob <;>
    simp [reject, hd, ha]

theorem closeEvent_applyJob (s : ViewPropsProgressInfo) (visible : Bool) :
    (s.closeEvent visible).m_applyViewPropsJob = none := by
  cases visible
  · simp [closeEvent]
  · simp only [closeEvent, if_true]
    exact (reject_pointers _).2

/-- The shape of a successful `applyViewProperties`. -/
theorem applyViewProperties_some (s after : ViewPropsProgressInfo) (error subdirs : Int)
    (happly : applyViewProperties s error subdirs = some after) :
    s.m_dirSizeJob.isSome = true ∧
    ((error ≠ 0 ∧ after = s) ∨ (error = 0 ∧ after.m_dirSizeJob = none)) := by
  cases hd : s.m_dirSizeJob with
  | none => simp [applyViewProperties, hd] at happly
  | some j =>
    refine ⟨rfl, ?_⟩
    by_cases he : error = 0
    · right
      simp only [applyViewProperties, hd, he, ne_eq, not_true_eq_false, if_false,
        Option.some.injEq] at happly
      exact ⟨he, by rw [← happly]⟩
    · left
      simp only [applyViewProperties, hd, ne_eq, he, not_false_eq_true, if_true,
        Option.some.injEq] at happly
      exact ⟨he, happly.symm⟩

/-- One event keeps the two job pointers from being set together. -/
theorem step_not_both (s after : ViewPropsProgressInfo) (e : Event)
    (hstep : step s e = some after)
    (hinv : ¬ (s.m_dirSizeJob.isSome = true ∧ s.m_applyViewPropsJob.isSome = true)) :
    ¬ (after.m_dirSizeJob.isSome = true ∧ after.m_applyViewPropsJob.isSome = true) := by
  cases e with
  | updateProgress subdirs progress =>
    simp only [step, Option.some.injEq] at hstep
    rw [← hstep, (updateProgress_pointers s subdirs progress).1,
      (updateProgress_pointers s subdirs progress).2]
    exact hinv
  | applyViewProperties error subdirs =>
    simp only [step] at hstep
    rcases (applyViewProperties_some s after error subdirs hstep).2 with ⟨_, hsame⟩ | ⟨_, hnone⟩
    · rw [hsame]
      exact hinv
    · simp [hnone]
  | reject =>
    simp only [step, Option.some.injEq] at hstep
    rw [← hstep]
    simp [(reject_pointers s).1]
  | closeEvent visible =>
    simp only [step, Option.some.injEq] at hstep
    rw [← hstep]
    simp [closeEvent_applyJob s visible]

/-- An event after which the apply job pointer is set either found it set or is
an `applyViewProperties` whose directory-size job had no error. -/
theorem step_applyJob_origin (s after : ViewPropsProgressInfo) (e : Event)
    (hstep : step s e = some after) (hset : after.m_applyViewPropsJob.isSome = true) :
    s.m_applyViewPropsJob.isSome = true ∨
    (s.m_dirSizeJob.isSome = true ∧ ∃ subdirs, e = Event.applyViewProperties 0 subdirs) := by
  cases e with
  | updateProgress subdirs progress =>
    simp only [step, Option.some.injEq] at hstep
    rw [← hstep, (updateProgress_pointers s subdirs progress).2] at hset
    exact Or.inl hset
  | applyViewProperties error subdirs =>
    simp only [step] at hstep
    have hshape := applyViewProperties_some s after error subdirs hstep
    rcases hshape.2 with ⟨_, hsame⟩ | ⟨hzero, _⟩
    · rw [hsame] at hset
      exact Or.inl hset
    · exact Or.inr ⟨hshape.1, subdirs, by rw [hzero]⟩
  | reject =>
    simp only [step, Option.some.injEq] at hstep
    rw [← hstep, (reject_pointers s).2] at hset
    simp at hset
  | closeEvent visible =>
    simp only [step, Option.some.injEq] at hstep
    rw [← hstep, closeEvent_applyJob s visible] at hset
    simp at hset

theorem run_not_both (s after : ViewPropsProgressInfo) (events : List Event)
    (hrun : run s events = some after)
    (hinv : ¬ (s.m_dirSizeJob.isSome = true ∧ s.m_applyViewPropsJob.isSome = true)) :
    ¬ (after.m_dirSizeJob.isSome = true ∧ after.m_applyViewPropsJob.isSome = true) := by
  induction events generalizing s with
  | nil =>
    simp only [run, Option.some.injEq] at hrun
    rw [← hrun]
    exact hinv
  | cons e es ih =>
    cases hstep : step s e with
    | none => simp [run, hstep] at hrun
    | some s1 =>
      simp only [run, hstep] at hrun
      exact ih s1 hrun (step_not_both s s1 e hstep hinv)

theorem run_applyJob_origin (s after : ViewPropsProgressInfo) (events : List Event)
    (hrun : run s events = some after) (hset : after.m_applyViewPropsJob.isSome = true) :
    s.m_applyViewPropsJob.isSome = true ∨
    ∃ before subdirs later p,
      events = before ++ Event.applyViewProperties 0 subdirs :: later ∧
      run s before = some p ∧ p.m_dirSizeJob.isSome = true := by
  induction events generalizing s with
  | nil =>
    simp only [run, Option.some.injEq] at hrun
    rw [← hrun] at hset
    exact Or.inl hset
  | cons e es ih =>
    cases hstep : step s e with
    | none => simp [run, hstep] at hrun
    | some s1 =>
      simp only [run, hstep] at hrun
      rcases ih s1 hrun with hset1 | ⟨before, subdirs, later, p, hsplit, hbefore, hdir⟩
      · rcases step_applyJob_origin s s1 e hstep hset1 with hs | ⟨hdir, subdirs, he⟩
        · exact Or.inl hs
        · exact Or.inr ⟨[], subdirs, es, s, by rw [he]; rfl, rfl, hdir⟩
      · refine Or.inr ⟨e :: before, subdirs, later, p, by rw [hsplit]; rfl, ?_, hdir⟩
        simp only [run, hstep]
        exact hbefore

/-- C6: the two phases never overlap.  In every state reached from the constructed
dialog by a sequence of `updateProgress`, `applyViewProperties` (run while the
directory-size job pointer is set), `reject` and `closeEvent`, the two job
pointers are not both set, and when the apply job pointer is set the sequence
contains an `applyViewProperties` that ran with the directory-size job pointer
set and the job reporting no error. -/
theorem phases_never_overlap (dir viewProps : Nat) (events : List Event)
    (s : ViewPropsProgressInfo) (hrun : run (create dir viewProps) events = some s) :
    ¬ (s.m_dirSizeJob.isSome = true ∧ s.m_applyViewPropsJob.isSome = true) ∧
    (s.m_applyViewPropsJob.isSome = true →
      ∃ before subdirs later p,
        events = before ++ Event.applyViewProperties 0 subdirs :: later ∧
        run (create dir viewProps) before = some p ∧ p.m_dirSizeJob.isSome = true) := by
  constructor
  · exact run_not_both _ s events hrun (by simp [create])
  · intro hset
    rcases run_applyJob_origin _ s events hrun hset with hinit | hfound
    · simp [create] at hinit
    · exact hfound

/-- Witness of C6: the dialog counts, the directory-size job ends without error,
and the progress of the apply job is shown; the apply job pointer is then set,
the directory-size job pointer is not. -/
theorem phases_never_overlap_witness :
    ∃ s, run (create 1 2)
        [Event.updateProgress 3 0, Event.applyViewProperties 0 5, Event.updateProgress 5 1]
        = some s ∧
      s.m_applyViewPropsJob.isSome = true ∧
      ¬ (s.m_dirSizeJob.isSome = true ∧ s.m_applyViewPropsJob.isSome = true) ∧
      (s.m_applyViewPropsJob.isSome = true →
        ∃ before subdirs later p,
          [Event.updateProgress 3 0, Event.applyViewProperties 0 5, Event.updateProgress 5 1]
            = before ++ Event.applyViewProperties 0 subdirs :: later ∧
          run (create 1 2) before = some p ∧ p.m_dirSizeJob.isSome = true) :=
  ⟨_, rfl, by decide,
   phases_never_overlap 1 2
     [Event.updateProgress 3 0, Event.applyViewProperties 0 5, Event.updateProgress 5 1] _ rfl⟩

end ViewPropsProgressInfo

end Dolphin
